import Mathlib

/-!
Verification of the doubaoime-asr client: a shallow embedding of the
streaming ASR session engine (`doubaoime_asr/asr.py`), the audio framer
(`doubaoime_asr/audio.py`), the Wave secure-channel client
(`doubaoime_asr/wave_client.py`) and the credential helpers
(`doubaoime_asr/config.py`), together with theorems checking the
natural-language specification against the code.

Conventions of the embedding:
  * Python bytes become `List Nat` (each element a byte value);
  * Python floats that are only stored and compared become `Int`;
  * a Python function that can raise an exception that escapes the
    modelled code returns `Option` (`none` = uncaught exception);
  * JSON values (the output of `json.loads`) become the inductive
    `JsonVal`;
  * external collaborators (the Opus codec, the network, randomness) are
    passed in as explicit parameters.
-/

namespace DoubaoASR

/-- Frame position tag, from the protobuf enum `FrameState` used by
`asr.py` (`FRAME_STATE_FIRST` / `FRAME_STATE_MIDDLE` / `FRAME_STATE_LAST`). -/
inductive FrameState where
  | FIRST
  | MIDDLE
  | LAST
deriving DecidableEq, Repr

/-- Response taxonomy, from the `ResponseType` enum in `asr.py`. -/
inductive ResponseType where
  | TASK_STARTED
  | SESSION_STARTED
  | SESSION_FINISHED
  | VAD_START
  | INTERIM_RESULT
  | FINAL_RESULT
  | HEARTBEAT
  | ERROR
  | UNKNOWN
deriving DecidableEq, Repr

/-- A JSON value, the result of Python's `json.loads`. -/
inductive JsonVal where
  | null
  | bool (b : Bool)
  | num (n : Int)
  | str (s : String)
  | arr (elems : List JsonVal)
  | obj (fields : List (String × JsonVal))

/-- `d.get(key)` on a Python dict represented as an association list. -/
def jsonLookup (fields : List (String × JsonVal)) (key : String) : Option JsonVal :=
  match fields with
  | [] => none
  | (k, v) :: rest => if k = key then some v else jsonLookup rest key

/-- Python truthiness of a JSON value. -/
def JsonVal.truthy : JsonVal → Bool
  | .null => false
  | .bool b => b
  | .num n => n != 0
  | .str s => !(s = "")
  | .arr xs => !xs.isEmpty
  | .obj fs => !fs.isEmpty

/-- The `ASRResponse` dataclass of `asr.py`.  `text` and `packet_number`
keep the raw JSON value assigned by `_parse_response` (Python does not
coerce them); their defaults are `""` and `-1` as in the dataclass. -/
structure ASRResponse where
  type : ResponseType
  text : JsonVal := .str ""
  is_final : Bool := false
  vad_start : Bool := false
  vad_finished : Bool := false
  packet_number : JsonVal := .num (-1)
  error_msg : String := ""
  raw_json : Option JsonVal := none

/-- Accumulator of the `for r in results` loop of `_parse_response`. -/
structure ScanState where
  text : JsonVal
  is_interim : Bool
  vad_finished : Bool
  nonstream_result : Bool

/-- One iteration of the `for r in results` loop of `_parse_response`:
updates `text` on a truthy `r.get("text")`, clears `is_interim` when
`r.get("is_interim") is False`, sets `vad_finished` on a truthy
`r.get("is_vad_finished")` and `nonstream_result` on a truthy
`r.get("extra", \x7b\x7d).get("nonstream_result")`.  A non-dict element
makes `r.get` raise (`none`). -/
def scanResult (st : ScanState) (r : JsonVal) : Option ScanState :=
  match r with
  | .obj fs =>
    let text := match jsonLookup fs "text" with
      | some v => if v.truthy then v else st.text
      | none => st.text
    let isInterim := match jsonLookup fs "is_interim" with
      | some (.bool false) => false
      | _ => st.is_interim
    let vadFin := match jsonLookup fs "is_vad_finished" with
      | some v => if v.truthy then true else st.vad_finished
      | none => st.vad_finished
    match (match jsonLookup fs "extra" with
           | none => some ([] : List (String × JsonVal))
           | some (.obj efs) => some efs
           | some _ => none) with
    | none => none
    | some efs =>
      let nonstream := match jsonLookup efs "nonstream_result" with
        | some v => if v.truthy then true else st.nonstream_result
        | none => st.nonstream_result
      some { text := text, is_interim := isInterim, vad_finished := vadFin,
             nonstream_result := nonstream }
  | _ => none

/-- Python iteration over the `results` value: lists yield their
elements, strings their one-character substrings, dicts their keys;
other values raise `TypeError` (`none`). -/
def jsonIterate : JsonVal → Option (List JsonVal)
  | .arr xs => some xs
  | .str s => some (s.toList.map (fun c => .str (String.mk [c])))
  | .obj fs => some (fs.map (fun kv => .str kv.1))
  | _ => none

/-- The `_parse_response` classifier of `asr.py`, after the protobuf and
`json.loads` decoding steps: `message_type` and `status_message` are the
decoded protobuf fields, and `result_json` is the decoded JSON of the
`result_json` field (`none` when that field is empty or unparsable, both
of which the code maps to `UNKNOWN`).  Returns `none` when the Python
code would raise an uncaught exception. -/
def parseResponse (message_type status_message : String) (result_json : Option JsonVal) :
    Option ASRResponse :=
  if message_type = "TaskStarted" then some { type := .TASK_STARTED }
  else if message_type = "SessionStarted" then some { type := .SESSION_STARTED }
  else if message_type = "SessionFinished" then some { type := .SESSION_FINISHED }
  else if message_type = "TaskFailed" ∨ message_type = "SessionFailed" then
    some { type := .ERROR, error_msg := status_message }
  else
    match result_json with
    | none => some { type := .UNKNOWN }
    | some j =>
      match j with
      | .obj fs =>
        let results := jsonLookup fs "results"
        let extra := (jsonLookup fs "extra").getD (.obj [])
        match results with
        | none | some .null =>
          match extra with
          | .obj efs =>
            some { type := .HEARTBEAT,
                   packet_number := (jsonLookup efs "packet_number").getD (.num (-1)),
                   raw_json := some j }
          | _ => none
        | some rv =>
          match extra with
          | .obj efs =>
            if ((jsonLookup efs "vad_start").getD .null).truthy then
              some { type := .VAD_START, vad_start := true, raw_json := some j }
            else
              match jsonIterate rv with
              | none => none
              | some rs =>
                match rs.foldlM scanResult
                    { text := .str "", is_interim := true,
                      vad_finished := false, nonstream_result := false } with
                | none => none
                | some st =>
                  if st.nonstream_result ∨ (!st.is_interim ∧ st.vad_finished) then
                    some { type := .FINAL_RESULT, text := st.text, is_final := true,
                           vad_finished := st.vad_finished, raw_json := some j }
                  else
                    some { type := .INTERIM_RESULT, text := st.text, raw_json := some j }
          | _ => none
      | _ => none

end DoubaoASR

namespace DoubaoASR

/-- Frame tags written by `DoubaoASR._send_audio` for a list of `n` Opus
frames, in a run where the receiver never marks the session finished:
the frame at index 0 is tagged `FIRST` (this branch wins even when it is
also the last frame), the frame at index `n - 1` is tagged `LAST`, all
others `MIDDLE`.  `FinishSession` is sent afterwards and carries no
frame tag. -/
def sendAudioTags (n : Nat) : List FrameState :=
  (List.range n).map
    (fun i => if i = 0 then .FIRST else if i = n - 1 then .LAST else .MIDDLE)

/-- The inner `while len(pcm_buffer) >= bytes_per_frame` loop of
`DoubaoASR._send_audio_realtime`, with fuel bounding the iteration count
(each iteration removes `bpf ≥ 1` bytes, so `buf.length` iterations
suffice).  Returns the emitted frame tags, the leftover buffer and the
updated frame index; frame index 0 is tagged `FIRST`, later ones
`MIDDLE`. -/
def drainAux (bpf : Nat) : Nat → Nat → List Nat → List FrameState × List Nat × Nat
  | 0, idx, buf => ([], buf, idx)
  | fuel + 1, idx, buf =>
    if 0 < bpf ∧ bpf ≤ buf.length then
      let r := drainAux bpf fuel (idx + 1) (buf.drop bpf)
      ((if idx = 0 then FrameState.FIRST else FrameState.MIDDLE) :: r.1, r.2)
    else ([], buf, idx)

/-- Drain all full frames from the buffer (see `drainAux`). -/
def drainFrames (bpf idx : Nat) (buf : List Nat) : List FrameState × List Nat × Nat :=
  drainAux bpf buf.length idx buf

/-- Mutable state of the `_send_audio_realtime` sender across chunks:
the tags written so far, `pcm_buffer`, and `frame_index`. -/
structure RealtimeSendState where
  tags : List FrameState
  buffer : List Nat
  frameIndex : Nat

/-- One `async for chunk in audio_source` iteration of
`_send_audio_realtime` (in a run where the session is never marked
finished): append the chunk to `pcm_buffer`, then encode and send every
full frame. -/
def realtimeStep (bpf : Nat) (st : RealtimeSendState) (chunk : List Nat) : RealtimeSendState :=
  let d := drainFrames bpf st.frameIndex (st.buffer ++ chunk)
  { tags := st.tags ++ d.1, buffer := d.2.1, frameIndex := d.2.2 }

/-- Frame tags written by `DoubaoASR._send_audio_realtime` for an audio
source yielding `chunks`, in a run where the receiver never marks the
session finished: drain full frames as chunks arrive; at end of source,
a nonempty leftover buffer is zero-padded and sent as `LAST`, otherwise
if at least one frame was sent a synthetic silent `LAST` frame is sent. -/
def sendAudioRealtimeTags (bpf : Nat) (chunks : List (List Nat)) : List FrameState :=
  let st := chunks.foldl (realtimeStep bpf) ⟨[], [], 0⟩
  if !st.buffer.isEmpty then st.tags ++ [.LAST]
  else if 0 < st.frameIndex then st.tags ++ [.LAST]
  else st.tags

/-- Checker for the tail of the spec's frame-tag pattern: zero or more
`MIDDLE` followed by exactly one `LAST`. -/
def midLastTail : List FrameState → Bool
  | [.LAST] => true
  | .MIDDLE :: rest => midLastTail rest
  | _ => false

/-- The spec's frame-state invariant: exactly one `FIRST`, then zero or
more `MIDDLE`, then exactly one `LAST`. -/
def validTagSeq : List FrameState → Bool
  | .FIRST :: rest => midLastTail rest
  | _ => false

/-- Total number of bytes yielded by an audio source. -/
def totalLen (chunks : List (List Nat)) : Nat :=
  (chunks.map List.length).sum

end DoubaoASR
namespace DoubaoASR

lemma drainAux_spec (bpf : Nat) (hb : 0 < bpf) :
    ∀ (fuel idx : Nat) (buf : List Nat), buf.length ≤ fuel →
    drainAux bpf fuel idx buf =
      ((List.range (buf.length / bpf)).map
         (fun j => if idx + j = 0 then FrameState.FIRST else FrameState.MIDDLE),
       buf.drop (bpf * (buf.length / bpf)),
       idx + buf.length / bpf) := by
  intro fuel
  induction fuel with
  | zero =>
    intro idx buf hlen
    have hb0 : buf = [] := List.length_eq_zero.mp (Nat.le_zero.mp hlen)
    subst hb0
    simp [drainAux]
  | succ fuel ih =>
    intro idx buf hlen
    by_cases h : bpf ≤ buf.length
    · have hcond : 0 < bpf ∧ bpf ≤ buf.length := ⟨hb, h⟩
      have hdroplen : (buf.drop bpf).length ≤ fuel := by
        simp only [List.length_drop]; omega
      have hq : buf.length / bpf = (buf.length - bpf) / bpf + 1 :=
        Nat.div_eq_sub_div hb h
      simp only [drainAux, if_pos hcond, ih (idx + 1) (buf.drop bpf) hdroplen,
        List.length_drop]
      rw [hq]
      simp only [Prod.mk.injEq]
      refine ⟨?_, ?_, by omega⟩
      · rw [List.range_succ_eq_map, List.map_cons, List.map_map]
        have hfun : ((fun j => if idx + j = 0 then FrameState.FIRST else FrameState.MIDDLE) ∘ Nat.succ)
            = (fun j => if idx + 1 + j = 0 then FrameState.FIRST else FrameState.MIDDLE) := by
          funext j
          simp only [Function.comp]
          have e : idx + Nat.succ j = idx + 1 + j := by omega
          rw [e]
        rw [hfun]
        simp
      · rw [List.drop_drop]
        congr 1
        ring
    · have hlt : buf.length < bpf := Nat.lt_of_not_le h
      have hcond : ¬(0 < bpf ∧ bpf ≤ buf.length) := fun hc => h hc.2
      have hq : buf.length / bpf = 0 := Nat.div_eq_of_lt hlt
      rw [drainAux, if_neg hcond]
      simp [hq]

end DoubaoASR
namespace DoubaoASR

lemma drainFrames_spec (bpf : Nat) (hb : 0 < bpf) (idx : Nat) (buf : List Nat) :
    drainFrames bpf idx buf =
      ((List.range (buf.length / bpf)).map
         (fun j => if idx + j = 0 then FrameState.FIRST else FrameState.MIDDLE),
       buf.drop (bpf * (buf.length / bpf)),
       idx + buf.length / bpf) :=
  drainAux_spec bpf hb buf.length idx buf (Nat.le_refl _)

/-- The frame tags produced for the first `q` frames of a realtime
session: frame 0 is `FIRST`, the rest `MIDDLE`. -/
def tagsUpTo (q : Nat) : List FrameState :=
  (List.range q).map (fun j => if j = 0 then FrameState.FIRST else FrameState.MIDDLE)

lemma tagsUpTo_add (a b : Nat) :
    tagsUpTo (a + b) =
      tagsUpTo a ++ (List.range b).map
        (fun j => if a + j = 0 then FrameState.FIRST else FrameState.MIDDLE) := by
  unfold tagsUpTo
  rw [List.range_add, List.map_append, List.map_map]
  rfl

lemma realtimeStep_coh (bpf : Nat) (hb : 0 < bpf) (st : RealtimeSendState) (T : Nat)
    (chunk : List Nat)
    (h1 : st.frameIndex = T / bpf) (h2 : st.buffer.length = T % bpf)
    (h3 : st.tags = tagsUpTo (T / bpf)) :
    (realtimeStep bpf st chunk).frameIndex = (T + chunk.length) / bpf ∧
    (realtimeStep bpf st chunk).buffer.length = (T + chunk.length) % bpf ∧
    (realtimeStep bpf st chunk).tags = tagsUpTo ((T + chunk.length) / bpf) := by
  have hT : bpf * (T / bpf) + T % bpf = T := Nat.div_add_mod T bpf
  have hTc : T + chunk.length = bpf * (T / bpf) + (T % bpf + chunk.length) := by omega
  have hdiv : (T + chunk.length) / bpf = T / bpf + (T % bpf + chunk.length) / bpf := by
    rw [hTc, Nat.mul_add_div hb]
  have hmod : (T + chunk.length) % bpf = (T % bpf + chunk.length) % bpf := by
    rw [hTc, Nat.mul_add_mod]
  have hlen : (st.buffer ++ chunk).length = T % bpf + chunk.length := by
    simp [List.length_append, h2]
  refine ⟨?_, ?_, ?_⟩
  · simp only [realtimeStep, drainFrames_spec bpf hb, hlen, h1, hdiv]
  · simp only [realtimeStep, drainFrames_spec bpf hb, hlen, List.length_drop, hmod]
    have hdm := Nat.div_add_mod (T % bpf + chunk.length) bpf
    omega
  · simp only [realtimeStep, drainFrames_spec bpf hb, hlen, h1, h3, hdiv, tagsUpTo_add]

lemma realtime_fold (bpf : Nat) (hb : 0 < bpf) :
    ∀ (chunks : List (List Nat)) (st : RealtimeSendState) (T : Nat),
    st.frameIndex = T / bpf → st.buffer.length = T % bpf → st.tags = tagsUpTo (T / bpf) →
    (chunks.foldl (realtimeStep bpf) st).frameIndex = (T + totalLen chunks) / bpf ∧
    (chunks.foldl (realtimeStep bpf) st).buffer.length = (T + totalLen chunks) % bpf ∧
    (chunks.foldl (realtimeStep bpf) st).tags = tagsUpTo ((T + totalLen chunks) / bpf) := by
  intro chunks
  induction chunks with
  | nil =>
    intro st T h1 h2 h3
    simpa [totalLen] using ⟨h1, h2, h3⟩
  | cons c cs ih =>
    intro st T h1 h2 h3
    have hstep := realtimeStep_coh bpf hb st T c h1 h2 h3
    have := ih (realtimeStep bpf st c) (T + c.length) hstep.1 hstep.2.1 hstep.2.2
    have htot : T + c.length + totalLen cs = T + totalLen (c :: cs) := by
      simp [totalLen]; omega
    simpa [List.foldl_cons, htot] using this

lemma tagsUpTo_succ (m : Nat) :
    tagsUpTo (m + 1) = FrameState.FIRST :: List.replicate m FrameState.MIDDLE := by
  unfold tagsUpTo
  rw [List.range_succ_eq_map, List.map_cons, List.map_map]
  have hfun : ((fun j => if j = 0 then FrameState.FIRST else FrameState.MIDDLE) ∘ Nat.succ)
      = (fun _ : Nat => FrameState.MIDDLE) := by
    funext j
    simp [Function.comp]
  rw [hfun]
  simp [List.map_const']

end DoubaoASR
namespace DoubaoASR

lemma lastTagMap (m : Nat) :
    (List.range (m + 1)).map (fun i => if i = m then FrameState.LAST else FrameState.MIDDLE)
      = List.replicate m FrameState.MIDDLE ++ [FrameState.LAST] := by
  induction m with
  | zero => rfl
  | succ m ih =>
    rw [List.range_succ_eq_map, List.map_cons, List.map_map]
    have hfun : ((fun i => if i = m + 1 then FrameState.LAST else FrameState.MIDDLE) ∘ Nat.succ)
        = (fun i => if i = m then FrameState.LAST else FrameState.MIDDLE) := by
      funext i
      simp [Function.comp]
    rw [hfun, ih]
    simp [List.replicate_succ]

lemma sendAudioTags_eq (m : Nat) :
    sendAudioTags (m + 2)
      = FrameState.FIRST :: (List.replicate m FrameState.MIDDLE ++ [FrameState.LAST]) := by
  unfold sendAudioTags
  rw [List.range_succ_eq_map, List.map_cons, List.map_map]
  have hfun : ((fun i => if i = 0 then FrameState.FIRST
          else if i = m + 2 - 1 then FrameState.LAST else FrameState.MIDDLE) ∘ Nat.succ)
      = (fun i => if i = m then FrameState.LAST else FrameState.MIDDLE) := by
    funext i
    have h2 : m + 2 - 1 = m + 1 := by omega
    simp [Function.comp, h2, Nat.succ_eq_add_one]
  rw [hfun, lastTagMap]
  simp

end DoubaoASR
namespace DoubaoASR

/-- C1 (amended): the file/push-all sender satisfies the
FIRST-MIDDLE*-LAST pattern only for streams of at least two frames; a
one-frame stream is sent as a single frame tagged FIRST with no LAST
frame.  The live-source sender satisfies the pattern whenever the source
supplies at least one full frame of audio (with exactly one full frame it
sends FIRST and then the synthetic silent LAST); a source supplying less
than one full frame sends a single padded LAST frame with no FIRST. -/
theorem frame_state_sequence_amended :
    (∀ n, 2 ≤ n → sendAudioTags n
        = FrameState.FIRST :: (List.replicate (n - 2) FrameState.MIDDLE ++ [FrameState.LAST])) ∧
    sendAudioTags 1 = [FrameState.FIRST] ∧
    (∀ bpf chunks, 0 < bpf → bpf ≤ totalLen chunks →
      sendAudioRealtimeTags bpf chunks
        = FrameState.FIRST ::
            (List.replicate (totalLen chunks / bpf - 1) FrameState.MIDDLE ++ [FrameState.LAST])) ∧
    (∀ bpf chunks, 0 < totalLen chunks → totalLen chunks < bpf →
      sendAudioRealtimeTags bpf chunks = [FrameState.LAST]) := by
  refine ⟨?_, rfl, ?_, ?_⟩
  · intro n hn
    obtain ⟨m, rfl⟩ : ∃ m, n = m + 2 := ⟨n - 2, by omega⟩
    simpa using sendAudioTags_eq m
  · intro bpf chunks hb hle
    obtain ⟨h1, h2, h3⟩ :=
      realtime_fold bpf hb chunks ⟨[], [], 0⟩ 0 (by simp) (by simp) (by simp [tagsUpTo])
    unfold sendAudioRealtimeTags
    simp only [Nat.zero_add] at h1 h2 h3
    have hq1 : 1 ≤ totalLen chunks / bpf := (Nat.one_le_div_iff hb).mpr hle
    obtain ⟨q, hq⟩ : ∃ q, totalLen chunks / bpf = q + 1 := ⟨totalLen chunks / bpf - 1, by omega⟩
    have hres : (if !(chunks.foldl (realtimeStep bpf) ⟨[], [], 0⟩).buffer.isEmpty
            then (chunks.foldl (realtimeStep bpf) ⟨[], [], 0⟩).tags ++ [FrameState.LAST]
          else if 0 < (chunks.foldl (realtimeStep bpf) ⟨[], [], 0⟩).frameIndex
            then (chunks.foldl (realtimeStep bpf) ⟨[], [], 0⟩).tags ++ [FrameState.LAST]
          else (chunks.foldl (realtimeStep bpf) ⟨[], [], 0⟩).tags)
        = (chunks.foldl (realtimeStep bpf) ⟨[], [], 0⟩).tags ++ [FrameState.LAST] := by
      by_cases hbuf : (chunks.foldl (realtimeStep bpf) ⟨[], [], 0⟩).buffer.isEmpty
      · have hidx : 0 < (chunks.foldl (realtimeStep bpf) ⟨[], [], 0⟩).frameIndex := by
          rw [h1, hq]; omega
        simp [hbuf, hidx]
      · simp [hbuf]
    rw [hres, h3, hq, tagsUpTo_succ]
    simp
  · intro bpf chunks hpos hlt
    have hb : 0 < bpf := by omega
    obtain ⟨h1, h2, h3⟩ :=
      realtime_fold bpf hb chunks ⟨[], [], 0⟩ 0 (by simp) (by simp) (by simp [tagsUpTo])
    unfold sendAudioRealtimeTags
    simp only [Nat.zero_add] at h1 h2 h3
    have hq : totalLen chunks / bpf = 0 := Nat.div_eq_of_lt hlt
    have hm : totalLen chunks % bpf = totalLen chunks := Nat.mod_eq_of_lt hlt
    have hne : (chunks.foldl (realtimeStep bpf) ⟨[], [], 0⟩).buffer ≠ [] := by
      intro hnil
      rw [hnil] at h2
      simp at h2
      omega
    have hbuf : (chunks.foldl (realtimeStep bpf) ⟨[], [], 0⟩).buffer.isEmpty = false := by
      rcases hb2 : (chunks.foldl (realtimeStep bpf) ⟨[], [], 0⟩).buffer with _ | ⟨x, xs⟩
      · exact absurd hb2 hne
      · rfl
    rw [if_pos (by simp [hbuf]), h3, hq]
    simp [tagsUpTo]

end DoubaoASR
namespace DoubaoASR

/-- C1 counterexample: a one-frame stream through the file/push-all
sender is tagged FIRST only — no LAST frame at all — so the claimed
FIRST-MIDDLE*-LAST invariant fails; likewise the live sender given less
than one full frame of audio sends a single LAST with no FIRST. -/
theorem frame_state_counterexample :
    validTagSeq (sendAudioTags 1) = false ∧ sendAudioTags 1 = [FrameState.FIRST] ∧
    validTagSeq (sendAudioRealtimeTags 640 [[0]]) = false ∧
    sendAudioRealtimeTags 640 [[0]] = [FrameState.LAST] := by decide

/-- C1 witness: the amended frame-state theorem applied at concrete
inputs (a three-frame push-all stream and one-chunk live sources). -/
theorem frame_state_witness :
    (2 ≤ 3 ∧ sendAudioTags 3
        = FrameState.FIRST :: (List.replicate (3 - 2) FrameState.MIDDLE ++ [FrameState.LAST])) ∧
    (0 < 2 ∧ 2 ≤ totalLen [[0, 0, 0]] ∧ sendAudioRealtimeTags 2 [[0, 0, 0]]
        = FrameState.FIRST ::
            (List.replicate (totalLen [[0, 0, 0]] / 2 - 1) FrameState.MIDDLE ++ [FrameState.LAST])) ∧
    (0 < totalLen [[5]] ∧ totalLen [[5]] < 3 ∧ sendAudioRealtimeTags 3 [[5]] = [FrameState.LAST]) :=
  ⟨⟨by decide, frame_state_sequence_amended.1 3 (by decide)⟩,
   ⟨by decide, by decide, frame_state_sequence_amended.2.2.1 2 [[0, 0, 0]] (by decide) (by decide)⟩,
   ⟨by decide, by decide, frame_state_sequence_amended.2.2.2 3 [[5]] (by decide) (by decide)⟩⟩

end DoubaoASR

namespace DoubaoASR

/-- C2: the response classifier maps each of the five literal scenarios
exactly as specified: `message_type = "TaskFailed"` with
`status_message = "quota exceeded"` gives `Error` carrying that message;
`results` null with `extra.packet_number = 7` gives `Heartbeat` with
sequence 7; an interim `"hello"` entry gives `InterimResult "hello"`;
`"hello world"` with `is_interim = false` and `is_vad_finished = true`
gives `FinalResult` with `vad_finished = true`; `"x"` with nested
`extra.nonstream_result = true` gives `FinalResult` with
`vad_finished = false`. -/
theorem classifier_literal_scenarios :
    parseResponse "TaskFailed" "quota exceeded" none =
      some { type := .ERROR, error_msg := "quota exceeded" } ∧
    parseResponse "" ""
      (some (.obj [("results", .null), ("extra", .obj [("packet_number", .num 7)])])) =
      some { type := .HEARTBEAT, packet_number := .num 7,
             raw_json := some (.obj [("results", .null),
               ("extra", .obj [("packet_number", .num 7)])]) } ∧
    parseResponse "" ""
      (some (.obj [("results", .arr [.obj [("text", .str "hello"),
          ("is_interim", .bool true)]])])) =
      some { type := .INTERIM_RESULT, text := .str "hello",
             raw_json := some (.obj [("results", .arr [.obj [("text", .str "hello"),
               ("is_interim", .bool true)]])]) } ∧
    parseResponse "" ""
      (some (.obj [("results", .arr [.obj [("text", .str "hello world"),
          ("is_interim", .bool false), ("is_vad_finished", .bool true)]])])) =
      some { type := .FINAL_RESULT, text := .str "hello world", is_final := true,
             vad_finished := true,
             raw_json := some (.obj [("results", .arr [.obj [("text", .str "hello world"),
               ("is_interim", .bool false), ("is_vad_finished", .bool true)]])]) } ∧
    parseResponse "" ""
      (some (.obj [("results", .arr [.obj [("text", .str "x"),
          ("extra", .obj [("nonstream_result", .bool true)])]])])) =
      some { type := .FINAL_RESULT, text := .str "x", is_final := true,
             vad_finished := false,
             raw_json := some (.obj [("results", .arr [.obj [("text", .str "x"),
               ("extra", .obj [("nonstream_result", .bool true)])]])]) } :=
  ⟨rfl, rfl, rfl, rfl, rfl⟩

end DoubaoASR

namespace DoubaoASR

/-- Truncation to a 32-bit word. -/
def w32 (n : Nat) : Nat := n % 4294967296

/-- 32-bit left rotation by `r` bits. -/
def rotl32 (x r : Nat) : Nat := w32 (x * 2 ^ r) + w32 x / 2 ^ (32 - r)

/-- The ChaCha20 quarter round on state words `a b c d`.  Modelled from
the `cryptography` library's ChaCha20 (RFC 8439), which `wave_client.py`
calls through `WaveClient._chacha20_crypt`; the cipher itself is an
external collaborator of the repository. -/
def quarterRound (s : List Nat) (a b c d : Nat) : List Nat :=
  let sa := w32 (s.getD a 0 + s.getD b 0)
  let sd := rotl32 ((s.getD d 0) ^^^ sa) 16
  let sc := w32 (s.getD c 0 + sd)
  let sb := rotl32 ((s.getD b 0) ^^^ sc) 12
  let sa2 := w32 (sa + sb)
  let sd2 := rotl32 (sd ^^^ sa2) 8
  let sc2 := w32 (sc + sd2)
  let sb2 := rotl32 (sb ^^^ sc2) 7
  (((s.set a sa2).set b sb2).set c sc2).set d sd2

/-- One ChaCha20 double round: four column rounds then four diagonal
rounds. -/
def doubleRound (s : List Nat) : List Nat :=
  let s1 := quarterRound s 0 4 8 12
  let s2 := quarterRound s1 1 5 9 13
  let s3 := quarterRound s2 2 6 10 14
  let s4 := quarterRound s3 3 7 11 15
  let s5 := quarterRound s4 0 5 10 15
  let s6 := quarterRound s5 1 6 11 12
  let s7 := quarterRound s6 2 7 8 13
  quarterRound s7 3 4 9 14

/-- The 20 ChaCha20 rounds (ten double rounds). -/
def chachaRounds (s : List Nat) : List Nat :=
  doubleRound (doubleRound (doubleRound (doubleRound (doubleRound
    (doubleRound (doubleRound (doubleRound (doubleRound (doubleRound s)))))))))

/-- Little-endian 32-bit words from a byte string. -/
def leWords : List Nat → List Nat
  | b0 :: b1 :: b2 :: b3 :: rest =>
    (b0 + b1 * 256 + b2 * 65536 + b3 * 16777216) :: leWords rest
  | _ => []

/-- Little-endian serialization of one 32-bit word to four bytes. -/
def le4 (w : Nat) : List Nat :=
  [w % 256, w / 256 % 256, w / 65536 % 256, w / 16777216 % 256]

/-- The ChaCha20 constants: "expand 32-byte k" as little-endian words. -/
def chachaConsts : List Nat := [1634760805, 857760878, 2036477234, 1797285236]

/-- ChaCha20 initial state: constants, then the 32-byte key as eight
little-endian words, then the 16-byte nonce as four words, the first of
which is the block counter (the `cryptography` library's 16-byte-nonce
convention, matching `_chacha20_crypt`'s `nonce_16`).  The library
rejects other key/nonce sizes; the model totalizes by zero-padding and
truncating. -/
def chachaInit (key nonce16 : List Nat) (counter : Nat) : List Nat :=
  let keyWords := (leWords ((key ++ List.replicate 32 0).take 32)).map w32
  let nWords := (leWords ((nonce16 ++ List.replicate 16 0).take 16)).map w32
  chachaConsts ++ keyWords ++ [w32 (nWords.getD 0 0 + counter)] ++ nWords.drop 1

/-- One 64-byte ChaCha20 keystream block: run the rounds, add the
initial state word-wise, serialize little-endian. -/
def chachaBlock (key nonce16 : List Nat) (counter : Nat) : List Nat :=
  let s0 := chachaInit key nonce16 counter
  ((List.zipWith (fun a b => w32 (a + b)) (chachaRounds s0) s0).map le4).flatten

/-- The first `n` bytes of the ChaCha20 keystream for this key and
16-byte nonce (counter starting at the nonce's first word). -/
def chachaKeystream (key nonce16 : List Nat) (n : Nat) : List Nat :=
  (((List.range ((n + 63) / 64)).map (chachaBlock key nonce16)).flatten).take n

/-- `WaveClient._chacha20_crypt` of `wave_client.py`: a 12-byte nonce is
left-padded with four zero bytes to the 16-byte form, and the data is
XORed with the ChaCha20 keystream.  The same function both encrypts
(inside `prepare_request`) and decrypts (inside `decrypt`). -/
def chacha20_crypt (key nonce data : List Nat) : List Nat :=
  let nonce16 := if nonce.length = 12 then [0, 0, 0, 0] ++ nonce else nonce
  List.zipWith Nat.xor data (chachaKeystream key nonce16 data.length)

end DoubaoASR

namespace DoubaoASR

lemma length_quarterRound (s : List Nat) (a b c d : Nat) :
    (quarterRound s a b c d).length = s.length := by
  simp [quarterRound, List.length_set]

lemma length_doubleRound (s : List Nat) : (doubleRound s).length = s.length := by
  simp [doubleRound, length_quarterRound]

lemma length_chachaRounds (s : List Nat) : (chachaRounds s).length = s.length := by
  simp [chachaRounds, length_doubleRound]

lemma length_leWords : ∀ (l : List Nat), (leWords l).length = l.length / 4
  | [] => by simp [leWords]
  | [_] => by simp [leWords]
  | [_, _] => by simp [leWords]
  | [_, _, _] => by simp [leWords]
  | _ :: _ :: _ :: _ :: rest => by
    simp only [leWords, List.length_cons, length_leWords rest]
    omega

lemma length_chachaInit (key nonce16 : List Nat) (c : Nat) :
    (chachaInit key nonce16 c).length = 16 := by
  simp [chachaInit, chachaConsts, length_leWords, List.length_take, List.length_append,
    List.length_drop]

lemma length_flatten_map_le4 (l : List Nat) : ((l.map le4).flatten).length = 4 * l.length := by
  induction l with
  | nil => simp
  | cons a l ih => simp [le4, ih]; omega

lemma length_chachaBlock (key nonce16 : List Nat) (c : Nat) :
    (chachaBlock key nonce16 c).length = 64 := by
  unfold chachaBlock
  rw [length_flatten_map_le4]
  simp [List.length_zipWith, length_chachaRounds, length_chachaInit]

lemma length_flatten_map_block (key nonce16 : List Nat) (l : List Nat) :
    ((l.map (chachaBlock key nonce16)).flatten).length = 64 * l.length := by
  induction l with
  | nil => simp
  | cons a l ih => simp [length_chachaBlock, ih]; omega

lemma length_chachaKeystream (key nonce16 : List Nat) (n : Nat) :
    (chachaKeystream key nonce16 n).length = n := by
  unfold chachaKeystream
  rw [List.length_take, length_flatten_map_block, List.length_range]
  omega

lemma zipWith_xor_cancel : ∀ (l ks : List Nat), l.length ≤ ks.length →
    List.zipWith Nat.xor (List.zipWith Nat.xor l ks) ks = l := by
  intro l
  induction l with
  | nil => intro ks h; simp
  | cons a l ih =>
    intro ks h
    cases ks with
    | nil => simp at h
    | cons b ks =>
      simp only [List.zipWith_cons_cons]
      rw [ih ks (by simpa using h)]
      congr 1
      exact Nat.xor_cancel_right b a

/-- C3: for every key, every nonce and every message, applying the
ChaCha20 transform used by `prepare_request` and `decrypt`
(`WaveClient._chacha20_crypt`) twice with the same key and nonce is the
identity on the message: decrypting the encryption returns the message. -/
theorem chacha_crypt_roundtrip (key nonce m : List Nat) :
    chacha20_crypt key nonce (chacha20_crypt key nonce m) = m := by
  unfold chacha20_crypt
  have hclen : (List.zipWith Nat.xor m
      (chachaKeystream key (if nonce.length = 12 then [0, 0, 0, 0] ++ nonce else nonce)
        m.length)).length = m.length := by
    simp [List.length_zipWith, length_chachaKeystream]
  rw [hclen]
  exact zipWith_xor_cancel m _ (by simp [length_chachaKeystream])

end DoubaoASR

namespace DoubaoASR

/-- The standard base64 alphabet used by Python's `base64.b64encode` /
`base64.b64decode` in `WaveSession.to_dict` / `WaveSession.from_dict`. -/
def b64Alphabet : List Char :=
  "ABCDEFGHIJKLMNOPQRSTUVWXYZabcdefghijklmnopqrstuvwxyz0123456789+/".toList

/-- The base64 character for a 6-bit group. -/
def encChar (n : Nat) : Char := b64Alphabet.getD n 'A'

/-- The 6-bit group for a base64 character (`none` for a character
outside the alphabet). -/
def decChar (c : Char) : Option Nat := b64Alphabet.findIdx? (· = c)

/-- Python's `base64.b64encode`: three bytes become four alphabet
characters; a trailing group of one or two bytes is padded with `=`. -/
def b64encode : List Nat → List Char
  | [] => []
  | [a] => [encChar (a / 4), encChar (a % 4 * 16), '=', '=']
  | [a, b] => [encChar (a / 4), encChar (a % 4 * 16 + b / 16), encChar (b % 16 * 4), '=']
  | a :: b :: c :: rest =>
    encChar (a / 4) :: encChar (a % 4 * 16 + b / 16) :: encChar (b % 16 * 4 + c / 64) ::
      encChar (c % 64) :: b64encode rest

/-- Python's `base64.b64decode` on a well-formed base64 string: groups
of four characters, `=` padding allowed only at the very end; `none`
models the `binascii.Error` (a `ValueError`) raised on malformed
input. -/
def b64decode : List Char → Option (List Nat)
  | [] => some []
  | c1 :: c2 :: c3 :: c4 :: rest =>
    match decChar c1, decChar c2 with
    | some n1, some n2 =>
      if c3 = '=' ∧ c4 = '=' ∧ rest = [] then some [n1 * 4 + n2 / 16]
      else
        match decChar c3 with
        | some n3 =>
          if c4 = '=' ∧ rest = [] then some [n1 * 4 + n2 / 16, n2 % 16 * 16 + n3 / 4]
          else
            match decChar c4 with
            | some n4 =>
              (b64decode rest).map
                (fun t => (n1 * 4 + n2 / 16) :: (n2 % 16 * 16 + n3 / 4) :: (n3 % 4 * 64 + n4) :: t)
            | none => none
        | none => none
    | _, _ => none
  | _ => none

end DoubaoASR

namespace DoubaoASR

lemma decChar_encChar : ∀ n, n < 64 → decChar (encChar n) = some n := by decide

lemma encChar_ne_pad : ∀ n, n < 64 → encChar n ≠ '=' := by decide

lemma b64_roundtrip : ∀ (bs : List Nat), (∀ b ∈ bs, b < 256) →
    b64decode (b64encode bs) = some bs
  | [], _ => by simp [b64encode, b64decode]
  | [a], h => by
    have ha : a < 256 := h a (by simp)
    have h1 := decChar_encChar (a / 4) (by omega)
    have h2 := decChar_encChar (a % 4 * 16) (by omega)
    simp only [b64encode, b64decode, h1, h2]
    rw [if_pos (by simp)]
    simp only [Option.some.injEq, List.cons.injEq, and_true]
    omega
  | [a, b], h => by
    have ha : a < 256 := h a (by simp)
    have hb : b < 256 := h b (by simp)
    have h1 := decChar_encChar (a / 4) (by omega)
    have h2 := decChar_encChar (a % 4 * 16 + b / 16) (by omega)
    have h3 := decChar_encChar (b % 16 * 4) (by omega)
    have hne3 := encChar_ne_pad (b % 16 * 4) (by omega)
    simp only [b64encode, b64decode, h1, h2, h3]
    rw [if_neg (fun hc => hne3 hc.1), if_pos (by simp)]
    simp only [Option.some.injEq, List.cons.injEq, and_true]
    omega
  | a :: b :: c :: d :: rest, h => by
    have ha : a < 256 := h a (by simp)
    have hb : b < 256 := h b (by simp)
    have hc : c < 256 := h c (by simp)
    have h1 := decChar_encChar (a / 4) (by omega)
    have h2 := decChar_encChar (a % 4 * 16 + b / 16) (by omega)
    have h3 := decChar_encChar (b % 16 * 4 + c / 64) (by omega)
    have h4 := decChar_encChar (c % 64) (by omega)
    have hne3 := encChar_ne_pad (b % 16 * 4 + c / 64) (by omega)
    have hne4 := encChar_ne_pad (c % 64) (by omega)
    have ih := b64_roundtrip (d :: rest) (fun x hx => h x (by simp [hx]))
    simp only [b64encode, b64decode, h1, h2, h3, h4]
    rw [if_neg (fun hcond => hne3 hcond.1), if_neg (fun hcond => hne4 hcond.1), ih]
    simp only [Option.map_some', Option.some.injEq, List.cons.injEq, and_true]
    refine ⟨by omega, by omega, by omega⟩
  | [a, b, c], h => by
    have ha : a < 256 := h a (by simp)
    have hb : b < 256 := h b (by simp)
    have hc : c < 256 := h c (by simp)
    have h1 := decChar_encChar (a / 4) (by omega)
    have h2 := decChar_encChar (a % 4 * 16 + b / 16) (by omega)
    have h3 := decChar_encChar (b % 16 * 4 + c / 64) (by omega)
    have h4 := decChar_encChar (c % 64) (by omega)
    have hne3 := encChar_ne_pad (b % 16 * 4 + c / 64) (by omega)
    have hne4 := encChar_ne_pad (c % 64) (by omega)
    simp only [b64encode, b64decode, h1, h2, h3, h4]
    rw [if_neg (fun hcond => hne3 hcond.1), if_neg (fun hcond => hne4 hcond.1)]
    simp only [b64decode, Option.map_some', Option.some.injEq, List.cons.injEq, and_true]
    refine ⟨by omega, by omega, by omega⟩

end DoubaoASR
namespace DoubaoASR

/-- The `WaveSession` pydantic model of `wave_client.py`.  Bytes fields
are byte lists; `expires_at` (a Python float timestamp) is modelled as
an integer timestamp, which it is only ever stored and compared as. -/
structure WaveSession where
  ticket : String
  ticket_long : String
  encryption_key : List Nat
  client_random : List Nat
  server_random : List Nat
  shared_key : List Nat
  ticket_exp : Int
  ticket_long_exp : Int
  expires_at : Int
deriving DecidableEq, Repr

/-- The JSON-storable dict produced by `WaveSession.to_dict` (bytes
fields base64-encoded to strings). -/
structure WaveSessionDict where
  ticket : String
  ticket_long : String
  encryption_key : String
  client_random : String
  server_random : String
  shared_key : String
  ticket_exp : Int
  ticket_long_exp : Int
  expires_at : Int
deriving DecidableEq, Repr

/-- `WaveSession.to_dict`: base64-encode every bytes field. -/
def WaveSession.to_dict (s : WaveSession) : WaveSessionDict :=
  { ticket := s.ticket
    ticket_long := s.ticket_long
    encryption_key := String.mk (b64encode s.encryption_key)
    client_random := String.mk (b64encode s.client_random)
    server_random := String.mk (b64encode s.server_random)
    shared_key := String.mk (b64encode s.shared_key)
    ticket_exp := s.ticket_exp
    ticket_long_exp := s.ticket_long_exp
    expires_at := s.expires_at }

/-- `WaveSession.from_dict`: base64-decode the bytes fields; `none`
models the `ValueError` a malformed base64 string raises. -/
def WaveSession.from_dict (d : WaveSessionDict) : Option WaveSession :=
  match b64decode d.encryption_key.toList, b64decode d.client_random.toList,
        b64decode d.server_random.toList, b64decode d.shared_key.toList with
  | some ek, some cr, some sr, some sk =>
    some { ticket := d.ticket
           ticket_long := d.ticket_long
           encryption_key := ek
           client_random := cr
           server_random := sr
           shared_key := sk
           ticket_exp := d.ticket_exp
           ticket_long_exp := d.ticket_long_exp
           expires_at := d.expires_at }
  | _, _, _, _ => none

/-- C10: deserializing a serialized `WaveSession` round-trips —
`from_dict (to_dict s)` returns `s` with every field equal, the
byte-valued fields surviving the base64 encode/decode unchanged. -/
theorem wave_session_dict_roundtrip (s : WaveSession)
    (h1 : ∀ b ∈ s.encryption_key, b < 256) (h2 : ∀ b ∈ s.client_random, b < 256)
    (h3 : ∀ b ∈ s.server_random, b < 256) (h4 : ∀ b ∈ s.shared_key, b < 256) :
    WaveSession.from_dict (WaveSession.to_dict s) = some s := by
  unfold WaveSession.from_dict WaveSession.to_dict
  simp only
  rw [show (String.mk (b64encode s.encryption_key)).toList = b64encode s.encryption_key from rfl]
  rw [show (String.mk (b64encode s.client_random)).toList = b64encode s.client_random from rfl]
  rw [show (String.mk (b64encode s.server_random)).toList = b64encode s.server_random from rfl]
  rw [show (String.mk (b64encode s.shared_key)).toList = b64encode s.shared_key from rfl]
  rw [b64_roundtrip s.encryption_key h1, b64_roundtrip s.client_random h2,
    b64_roundtrip s.server_random h3, b64_roundtrip s.shared_key h4]

/-- A concrete `WaveSession` used to witness the round-trip theorem. -/
def sampleWaveSession : WaveSession :=
  { ticket := "tk"
    ticket_long := "tkl"
    encryption_key := [0, 1, 2, 255]
    client_random := [17]
    server_random := [255, 254]
    shared_key := [9, 8, 7]
    ticket_exp := 3600
    ticket_long_exp := 7200
    expires_at := 1000 }

/-- C10 witness: the round-trip theorem applied to a concrete session. -/
theorem wave_session_dict_roundtrip_witness :
    (∀ b ∈ sampleWaveSession.encryption_key, b < 256) ∧
    WaveSession.from_dict (WaveSession.to_dict sampleWaveSession) = some sampleWaveSession :=
  ⟨by decide,
   wave_session_dict_roundtrip sampleWaveSession (by decide) (by decide) (by decide) (by decide)⟩

end DoubaoASR
namespace DoubaoASR

/-- `WaveSession.is_expired`: `time.time() >= self.expires_at`. -/
def WaveSession.is_expired (s : WaveSession) (now : Int) : Bool :=
  decide (s.expires_at ≤ now)

/-- `WaveClient._ensure_session`, with the `handshake()` network call
abstracted as its outcome `hs` (`none` = the handshake POST failed, so
`handshake()` returned `False`; `some fresh` = the new session it
stores).  The result pairs the session that ends up in `self.session`
with the number of handshakes performed; `none` is the `RuntimeError`
raised when a needed handshake fails. -/
def ensure_session (session : Option WaveSession) (now : Int) (hs : Option WaveSession) :
    Option (WaveSession × Nat) :=
  match session with
  | none => hs.map (fun fresh => (fresh, 1))
  | some s => if s.is_expired now then hs.map (fun fresh => (fresh, 1)) else some (s, 0)

/-- The ciphertext path of `WaveClient.prepare_request`: ensure a valid
session, then ChaCha20-encrypt the plaintext under its key with the
fresh 12-byte `nonce`.  Returns the ciphertext, the session used for
encryption and the handshake count (the ticket/nonce/stub headers are
built from the same values and are not modelled); `none` is the
propagated `RuntimeError` of a failed handshake. -/
def prepare_request (session : Option WaveSession) (now : Int) (hs : Option WaveSession)
    (nonce plaintext : List Nat) : Option (List Nat × WaveSession × Nat) :=
  (ensure_session session now hs).map
    (fun p => (chacha20_crypt p.1.encryption_key nonce plaintext, p.1, p.2))

/-- The cached-session restore step of `ASRConfig.get_wave_client`:
`cached` is the stored `wave_session` dict (`none` when the credentials
or the dict are absent/falsy); a dict that fails to deserialize
(`KeyError`/`ValueError`, both caught) or whose absolute expiry has
passed is rejected, leaving no cached session. -/
def restore_cached_session (cached : Option WaveSessionDict) (now : Int) :
    Option WaveSession :=
  match cached with
  | none => none
  | some d =>
    match WaveSession.from_dict d with
    | none => none
    | some s => if s.is_expired now then none else some s

/-- C4: a `WaveSession` whose absolute expiry has passed is never used
to encrypt: a `prepare_request` on an absent or expired session performs
exactly one fresh handshake and encrypts under the fresh session's key,
raising (`none`) when that handshake fails; and a cached session
restored from external storage is accepted only if its absolute expiry
has not passed. -/
theorem expired_session_never_encrypts (session : Option WaveSession) (now : Int)
    (hs : Option WaveSession) (nonce plaintext : List Nat) (cached : Option WaveSessionDict)
    (hexp : session = none ∨ ∃ s, session = some s ∧ s.is_expired now = true) :
    (hs = none → prepare_request session now hs nonce plaintext = none) ∧
    (∀ fresh, hs = some fresh →
      prepare_request session now hs nonce plaintext =
        some (chacha20_crypt fresh.encryption_key nonce plaintext, fresh, 1)) ∧
    (∀ s, restore_cached_session cached now = some s → s.is_expired now = false) := by
  refine ⟨?_, ?_, ?_⟩
  · intro hnone
    subst hnone
    rcases hexp with h | ⟨s, hsess, hexpired⟩
    · subst h; rfl
    · subst hsess
      simp [prepare_request, ensure_session, hexpired]
  · intro fresh hfresh
    subst hfresh
    rcases hexp with h | ⟨s, hsess, hexpired⟩
    · subst h; rfl
    · subst hsess
      simp [prepare_request, ensure_session, hexpired]
  · intro s hres
    rcases cached with _ | d
    · simp [restore_cached_session] at hres
    · simp only [restore_cached_session] at hres
      rcases hfd : WaveSession.from_dict d with _ | s2
      · rw [hfd] at hres; exact absurd hres (by simp)
      · rw [hfd] at hres
        by_cases hx : s2.is_expired now
        · simp [hx] at hres
        · simp [hx] at hres
          subst hres
          simpa using hx

/-- A concrete expired `WaveSession` for the C4 witness. -/
def sampleExpiredSession : WaveSession :=
  { ticket := "old"
    ticket_long := "oldl"
    encryption_key := [1]
    client_random := [2]
    server_random := [3]
    shared_key := [4]
    ticket_exp := 10
    ticket_long_exp := 20
    expires_at := -5 }

/-- C4 witness: a protect call on a concrete expired session with a
successful handshake encrypts under the fresh session's key after
exactly one handshake. -/
theorem expired_session_never_encrypts_witness :
    (some sampleExpiredSession = none ∨
      ∃ s, some sampleExpiredSession = some s ∧ s.is_expired 0 = true) ∧
    prepare_request (some sampleExpiredSession) 0 (some sampleWaveSession) [7] [42] =
      some (chacha20_crypt sampleWaveSession.encryption_key [7] [42], sampleWaveSession, 1) :=
  ⟨Or.inr ⟨sampleExpiredSession, rfl, by decide⟩,
   (expired_session_never_encrypts (some sampleExpiredSession) 0 (some sampleWaveSession)
      [7] [42] none
      (Or.inr ⟨sampleExpiredSession, rfl, by decide⟩)).2.1 sampleWaveSession rfl⟩

end DoubaoASR

namespace DoubaoASR

/-- One pull from the delivery queue in `transcribe_stream`'s consumer
loop: `gap` is the time this `response_queue.get()` waits before the
item arrives (in the units of `recv_timeout`), `item` the queue entry
(`none` is the receiver's final sentinel). -/
structure QueuePull where
  gap : Nat
  item : Option ASRResponse

/-- The consumer loop of `DoubaoASR.transcribe_stream` (bounded/file
mode): each pull is wrapped in a fresh `asyncio.wait_for` with the full
`recv_timeout`, so the timeout clock restarts on every pull; a pull
waiting longer than the timeout breaks out (as does an exhausted queue,
whose pull never returns); the `None` sentinel breaks out; a `HEARTBEAT`
is consumed without being yielded; any other response is yielded, and an
`ERROR` breaks after being yielded.  Returns the responses yielded to
the caller. -/
def consumeLoop (timeout : Nat) : List QueuePull → List ASRResponse
  | [] => []
  | p :: rest =>
    if timeout < p.gap then []
    else
      match p.item with
      | none => []
      | some r =>
        if r.type = .HEARTBEAT then consumeLoop timeout rest
        else if r.type = .ERROR then [r]
        else r :: consumeLoop timeout rest

/-- C5: heartbeats pulled from the delivery queue are never yielded to
the caller, and a run of heartbeats each arriving within the (per-pull,
restarted) receive timeout is transparent: the loop continues exactly as
if the heartbeats were not there, so a stream of heartbeats keeps the
consumer alive without forwarding any event. -/
theorem heartbeats_never_yielded (timeout : Nat) :
    (∀ pulls, ∀ r ∈ consumeLoop timeout pulls, r.type ≠ ResponseType.HEARTBEAT) ∧
    (∀ hbs rest,
      (∀ p ∈ hbs, p.gap ≤ timeout ∧ ∃ r, p.item = some r ∧ r.type = ResponseType.HEARTBEAT) →
      consumeLoop timeout (hbs ++ rest) = consumeLoop timeout rest) := by
  constructor
  · intro pulls
    induction pulls with
    | nil => intro r hr; simp [consumeLoop] at hr
    | cons p rest ih =>
      intro r hr
      simp only [consumeLoop] at hr
      by_cases hg : timeout < p.gap
      · simp [hg] at hr
      · rw [if_neg hg] at hr
        rcases hp : p.item with _ | q
        · rw [hp] at hr; simp at hr
        · rw [hp] at hr
          dsimp only at hr
          by_cases hhb : q.type = ResponseType.HEARTBEAT
          · rw [if_pos hhb] at hr; exact ih r hr
          · rw [if_neg hhb] at hr
            by_cases herr : q.type = ResponseType.ERROR
            · rw [if_pos herr] at hr
              simp at hr
              subst hr
              simp [herr]
            · rw [if_neg herr] at hr
              rcases List.mem_cons.mp hr with h | h
              · subst h; exact hhb
              · exact ih r h
  · intro hbs
    induction hbs with
    | nil => intro rest _; simp
    | cons p hbs ih =>
      intro rest hall
      obtain ⟨hgap, r, hitem, hhb⟩ := hall p (by simp)
      simp only [List.cons_append, consumeLoop]
      rw [if_neg (by omega), hitem]
      dsimp only
      rw [if_pos hhb]
      exact ih rest (fun q hq => hall q (by simp [hq]))

/-- A heartbeat response as `_parse_response` would classify it. -/
def hbResp : ASRResponse := { type := .HEARTBEAT }

/-- A final-result response for concrete runs. -/
def finResp : ASRResponse := { type := .FINAL_RESULT, is_final := true }

/-- C5 witness: the heartbeat theorem applied to a concrete queue run
(one in-time heartbeat followed by a final result and the sentinel). -/
theorem heartbeats_never_yielded_witness :
    (consumeLoop 5 [⟨1, some hbResp⟩, ⟨2, some finResp⟩, ⟨0, none⟩] = [finResp] ∧
      finResp.type ≠ ResponseType.HEARTBEAT) ∧
    ((∀ p ∈ [(⟨1, some hbResp⟩ : QueuePull)],
        p.gap ≤ 5 ∧ ∃ r, p.item = some r ∧ r.type = ResponseType.HEARTBEAT) ∧
      consumeLoop 5 ([⟨1, some hbResp⟩] ++ [⟨2, some finResp⟩, ⟨0, none⟩]) =
        consumeLoop 5 [⟨2, some finResp⟩, ⟨0, none⟩]) := by
  have hmem : finResp ∈ consumeLoop 5 [⟨1, some hbResp⟩, ⟨2, some finResp⟩, ⟨0, none⟩] := by
    rw [show consumeLoop 5 [⟨1, some hbResp⟩, ⟨2, some finResp⟩, ⟨0, none⟩] = [finResp] from rfl]
    exact List.mem_singleton.mpr rfl
  have hhbs : ∀ p ∈ [(⟨1, some hbResp⟩ : QueuePull)],
      p.gap ≤ 5 ∧ ∃ r, p.item = some r ∧ r.type = ResponseType.HEARTBEAT := by
    intro p hp
    simp at hp
    subst hp
    exact ⟨by decide, hbResp, rfl, rfl⟩
  exact ⟨⟨rfl, (heartbeats_never_yielded 5).1
        [⟨1, some hbResp⟩, ⟨2, some finResp⟩, ⟨0, none⟩] finResp hmem⟩,
    ⟨hhbs, (heartbeats_never_yielded 5).2 [⟨1, some hbResp⟩]
        [⟨2, some finResp⟩, ⟨0, none⟩] hhbs⟩⟩

end DoubaoASR
namespace DoubaoASR

/-- `samples_per_frame = sample_rate * frame_duration_ms // 1000` from
`AudioEncoder.pcm_to_opus_frames`. -/
def samples_per_frame (sample_rate frame_duration_ms : Nat) : Nat :=
  sample_rate * frame_duration_ms / 1000

/-- The segmentation loop of `AudioEncoder.pcm_to_opus_frames`:
`for i in range(0, len(pcm_data), bytes_per_frame)` takes successive
`bytes_per_frame`-byte chunks and zero-pads a short final chunk to the
full frame size.  (`bytes_per_frame = 0` would make the Python `range`
raise; the model returns no chunks.) -/
def chunkPad (bpf : Nat) (pcm : List Nat) : List (List Nat) :=
  if h : 0 < bpf ∧ pcm ≠ [] then
    (pcm.take bpf ++ List.replicate (bpf - (pcm.take bpf).length) 0) ::
      chunkPad bpf (pcm.drop bpf)
  else []
termination_by pcm.length
decreasing_by
  simp only [List.length_drop]
  have : 0 < pcm.length := List.length_pos.mpr h.2
  omega

/-- `AudioEncoder.pcm_to_opus_frames`: chunk, pad, then compress each
chunk with the external Opus codec (`self.encoder.encode`), passed in as
the function `encode`. -/
def pcm_to_opus_frames (encode : List Nat → List Nat)
    (sample_rate frame_duration_ms : Nat) (pcm : List Nat) : List (List Nat) :=
  (chunkPad (samples_per_frame sample_rate frame_duration_ms * 2) pcm).map encode

lemma chunkPad_nil (bpf : Nat) : chunkPad bpf [] = [] := by
  rw [chunkPad]
  simp

lemma chunkPad_exact (bpf : Nat) (hb : 0 < bpf) :
    ∀ (k : Nat) (pcm : List Nat), pcm.length = k * bpf →
      (chunkPad bpf pcm).length = k ∧ (∀ c ∈ chunkPad bpf pcm, c.length = bpf) ∧
        (chunkPad bpf pcm).flatten = pcm := by
  intro k
  induction k with
  | zero =>
    intro pcm h
    have : pcm = [] := List.length_eq_zero.mp (by omega)
    subst this
    simp [chunkPad_nil]
  | succ k ih =>
    intro pcm h
    have hlen : 0 < pcm.length := by
      have : 0 < (k + 1) * bpf := by positivity
      omega
    have hne : pcm ≠ [] := by
      intro hnil
      rw [hnil] at hlen
      simp at hlen
    have hbpf_le : bpf ≤ pcm.length := by
      have : (k + 1) * bpf = k * bpf + bpf := by ring
      omega
    have htake : (pcm.take bpf).length = bpf := by
      simp [List.length_take]
      omega
    have hdrop : (pcm.drop bpf).length = k * bpf := by
      simp [List.length_drop]
      have : (k + 1) * bpf = k * bpf + bpf := by ring
      omega
    obtain ⟨ih1, ih2, ih3⟩ := ih (pcm.drop bpf) hdrop
    rw [chunkPad, dif_pos ⟨hb, hne⟩]
    refine ⟨by simp [ih1], ?_, ?_⟩
    · intro c hc
      rcases List.mem_cons.mp hc with hc | hc
      · subst hc
        simp [htake]
      · exact ih2 c hc
    · simp only [List.flatten_cons, ih3, htake]
      simp [List.take_append_drop]

/-- C6: for a 16 kHz, 1-channel, 1.5-second 16-bit PCM input (48000
bytes) with 20 ms frames, the framer yields exactly 75 frames, each
chunk holds exactly `samples_per_frame = 16000 * 20 / 1000 = 320`
samples (640 bytes, so the last frame is at full frame size after
zero-padding), and the chunks reassemble the input exactly (nothing
dropped, nothing short). -/
theorem framer_75_frames (encode : List Nat → List Nat) (pcm : List Nat)
    (h : pcm.length = 48000) :
    samples_per_frame 16000 20 = 320 ∧
    (pcm_to_opus_frames encode 16000 20 pcm).length = 75 ∧
    (∀ c ∈ chunkPad (samples_per_frame 16000 20 * 2) pcm, c.length = 640) ∧
    (chunkPad (samples_per_frame 16000 20 * 2) pcm).flatten = pcm := by
  have h75 : pcm.length = 75 * 640 := by omega
  obtain ⟨h1, h2, h3⟩ := chunkPad_exact 640 (by omega) 75 pcm h75
  exact ⟨rfl, by simp [pcm_to_opus_frames, samples_per_frame, h1], h2, h3⟩


end DoubaoASR
namespace DoubaoASR

/-- C6 witness: the framer theorem applied to a concrete 48000-byte
silent input. -/
theorem framer_75_frames_witness :
    (List.replicate 48000 0).length = 48000 ∧
    (pcm_to_opus_frames (fun c => c) 16000 20 (List.replicate 48000 0)).length = 75 :=
  ⟨List.length_replicate 48000 0,
   (framer_75_frames (fun c => c) (List.replicate 48000 0)
      (List.length_replicate 48000 0)).2.1⟩

end DoubaoASR
namespace DoubaoASR

/-- `DoubaoASR._initialize_session`, after `_parse_response`: `r1` and
`r2` are the classified replies to `StartTask` and `StartSession`.  The
first component lists the responses yielded to the caller, the second
carries the response attached to a raised `ASRError` (`StartTask 失败` /
`StartSession 失败`), if any; an error reply stops the generator before
anything later is yielded. -/
def initialize_session (r1 r2 : ASRResponse) : List ASRResponse × Option ASRResponse :=
  if r1.type = .ERROR then ([], some r1)
  else if r2.type = .ERROR then ([r1], some r2)
  else ([r1, r2], none)

/-- The session-opening prefix of `transcribe_stream` /
`transcribe_realtime`: `_initialize_session` is consumed to completion
before the send and receive tasks are created, so a raised `ASRError`
propagates to the caller and no `TaskRequest` frame is ever written.
`audioTags` are the frames the sender would write in the streaming
phase; `Except.error` is the propagated `ASRError`'s response. -/
def sessionPhase (r1 r2 : ASRResponse) (audioTags : List FrameState) :
    Except ASRResponse (List ASRResponse × List FrameState) :=
  match initialize_session r1 r2 with
  | (_, some e) => .error e
  | (ys, none) => .ok (ys, audioTags)

/-- C7: if the reply to `StartTask` or to `StartSession` classifies as
an error, the session fails at once with an exception carrying exactly
that error response — before any audio frame is sent and without
reaching the streaming phase (no `Except.ok` outcome exists). -/
theorem lifecycle_error_fatal (r1 r2 : ASRResponse) (audioTags : List FrameState)
    (h : r1.type = ResponseType.ERROR ∨ r2.type = ResponseType.ERROR) :
    (r1.type = ResponseType.ERROR → sessionPhase r1 r2 audioTags = .error r1) ∧
    (r1.type ≠ ResponseType.ERROR → r2.type = ResponseType.ERROR →
      sessionPhase r1 r2 audioTags = .error r2) ∧
    (∀ ys frames, sessionPhase r1 r2 audioTags ≠ .ok (ys, frames)) := by
  refine ⟨?_, ?_, ?_⟩
  · intro h1
    simp [sessionPhase, initialize_session, h1]
  · intro h1 h2
    simp [sessionPhase, initialize_session, h1, h2]
  · intro ys frames hok
    rcases h with h1 | h2
    · simp [sessionPhase, initialize_session, h1] at hok
    · by_cases h1 : r1.type = ResponseType.ERROR
      · simp [sessionPhase, initialize_session, h1] at hok
      · simp [sessionPhase, initialize_session, h1, h2] at hok

/-- An error response for concrete runs. -/
def errResp : ASRResponse := { type := .ERROR, error_msg := "StartTask rejected" }

/-- C7 witness: the lifecycle theorem applied to a concrete rejected
`StartTask` reply. -/
theorem lifecycle_error_fatal_witness :
    (errResp.type = ResponseType.ERROR ∨ finResp.type = ResponseType.ERROR) ∧
    sessionPhase errResp finResp [FrameState.FIRST, FrameState.LAST] = .error errResp :=
  ⟨Or.inl rfl,
   (lifecycle_error_fatal errResp finResp [FrameState.FIRST, FrameState.LAST]
      (Or.inl rfl)).1 rfl⟩

/-- `DoubaoASR._receive_responses`, given the classified responses of
the messages the transport delivers before closing (a
`ConnectionClosed` ends the list): an `ERROR` is pushed and the loop
breaks (recording the error and marking the session finished); a
`SESSION_FINISHED` is pushed and the loop breaks; everything else
(heartbeats, results, unknowns) is pushed and the loop continues. -/
def recvLoop : List ASRResponse → List (Option ASRResponse)
  | [] => []
  | r :: rest =>
    if r.type = .ERROR then [some r]
    else if r.type = .SESSION_FINISHED then [some r]
    else some r :: recvLoop rest

/-- The full queue-push sequence of `DoubaoASR._receive_responses`: the
`finally` block appends exactly one `None` sentinel after the loop ends,
on every path (error push, session-finished push, transport closure). -/
def receiveResponsesPushes (msgs : List ASRResponse) : List (Option ASRResponse) :=
  recvLoop msgs ++ [none]

lemma recvLoop_no_sentinel (msgs : List ASRResponse) : ∀ p ∈ recvLoop msgs, p ≠ none := by
  induction msgs with
  | nil => intro p hp; simp [recvLoop] at hp
  | cons r rest ih =>
    intro p hp
    simp only [recvLoop] at hp
    by_cases h1 : r.type = ResponseType.ERROR
    · rw [if_pos h1] at hp
      simp at hp
      simp [hp]
    · rw [if_neg h1] at hp
      by_cases h2 : r.type = ResponseType.SESSION_FINISHED
      · rw [if_pos h2] at hp
        simp at hp
        simp [hp]
      · rw [if_neg h2] at hp
        rcases List.mem_cons.mp hp with h | h
        · simp [h]
        · exact ih p h

/-- C8: however the receiver stops — after pushing an error, after
pushing a session-finished event, or on transport closure — its push
sequence is some sentinel-free prefix followed by exactly one final
`None` sentinel; a consumer loop stopping at the sentinel therefore
terminates. -/
theorem receiver_sentinel_last (msgs : List ASRResponse) :
    ∃ ps, receiveResponsesPushes msgs = ps ++ [none] ∧ ∀ p ∈ ps, p ≠ none :=
  ⟨recvLoop msgs, rfl, recvLoop_no_sentinel msgs⟩

end DoubaoASR

namespace DoubaoASR

/-- Python's `str.split(sep)` for a one-character separator, on the
character list of the string. -/
def splitOnChar (sep : Char) : List Char → List (List Char)
  | [] => [[]]
  | c :: rest =>
    let r := splitOnChar sep rest
    if c = sep then [] :: r
    else
      match r with
      | [] => [[c]]
      | g :: gs => (c :: g) :: gs

/-- Skip JSON whitespace. -/
def skipWs : List Char → List Char
  | c :: rest =>
    if c = ' ' ∨ c = '\t' ∨ c = '\n' ∨ c = '\r' then skipWs rest else c :: rest
  | [] => []

/-- Decode one JSON single-character string escape (`u` escapes are not
modelled; on them the parse fails). -/
def unescape (c : Char) : Option Char :=
  if c = '"' then some '"'
  else if c = '\\' then some '\\'
  else if c = '/' then some '/'
  else if c = 'n' then some '\n'
  else if c = 't' then some '\t'
  else if c = 'r' then some '\r'
  else if c = 'b' then some (Char.ofNat 8)
  else if c = 'f' then some (Char.ofNat 12)
  else none

/-- Parse the body of a JSON string after the opening quote. -/
def parseStringBody : Nat → List Char → Option (List Char × List Char)
  | 0, _ => none
  | _, [] => none
  | fuel + 1, c :: rest =>
    if c = '"' then some ([], rest)
    else if c = '\\' then
      match rest with
      | [] => none
      | e :: rest2 =>
        match unescape e with
        | none => none
        | some u =>
          match parseStringBody fuel rest2 with
          | none => none
          | some (cs, r) => some (u :: cs, r)
    else
      match parseStringBody fuel rest with
      | none => none
      | some (cs, r) => some (c :: cs, r)

/-- Parse a run of decimal digits as a natural number. -/
def parseDigits (input : List Char) : Option (Nat × List Char) :=
  let digits := input.takeWhile (fun c => c.isDigit)
  if digits = [] then none
  else some (digits.foldl (fun acc c => acc * 10 + (c.toNat - 48)) 0,
    input.dropWhile (fun c => c.isDigit))

/-- The two brace characters, kept out of literals. -/
def lbrace : Char := Char.ofNat 123

/-- Closing brace. -/
def rbrace : Char := Char.ofNat 125

mutual

/-- Recursive-descent parser for the JSON subset the repository's
payloads use (objects, arrays, strings, integers, booleans, null),
modelling `json.loads`.  JSON reals and `u` escapes are not modelled
(the parse fails on them).  `fuel` bounds the descent depth; every
descent consumes at least one character, so `input.length + 1` fuel
never runs out. -/
def parseJsonVal : Nat → List Char → Option (JsonVal × List Char)
  | 0, _ => none
  | fuel + 1, input =>
    match skipWs input with
    | [] => none
    | c :: rest =>
      if c = lbrace then
        match skipWs rest with
        | c2 :: rest2 =>
          if c2 = rbrace then some (.obj [], rest2)
          else
            match parseObjMembers fuel (c2 :: rest2) with
            | some (fs, r) => some (.obj fs, r)
            | none => none
        | [] => none
      else if c = '[' then
        match skipWs rest with
        | c2 :: rest2 =>
          if c2 = ']' then some (.arr [], rest2)
          else
            match parseArrItems fuel (c2 :: rest2) with
            | some (xs, r) => some (.arr xs, r)
            | none => none
        | [] => none
      else if c = '"' then
        match parseStringBody (rest.length + 1) rest with
        | some (cs, r) => some (.str (String.mk cs), r)
        | none => none
      else if c = 't' then
        match rest with
        | 'r' :: 'u' :: 'e' :: r => some (.bool true, r)
        | _ => none
      else if c = 'f' then
        match rest with
        | 'a' :: 'l' :: 's' :: 'e' :: r => some (.bool false, r)
        | _ => none
      else if c = 'n' then
        match rest with
        | 'u' :: 'l' :: 'l' :: r => some (.null, r)
        | _ => none
      else if c = '-' then
        match parseDigits rest with
        | some (n, r) =>
          if (r.take 1).any (fun d => d = '.' ∨ d = 'e' ∨ d = 'E') then none
          else some (.num (-(n : Int)), r)
        | none => none
      else if c.isDigit then
        match parseDigits (c :: rest) with
        | some (n, r) =>
          if (r.take 1).any (fun d => d = '.' ∨ d = 'e' ∨ d = 'E') then none
          else some (.num (n : Int), r)
        | none => none
      else none

/-- Comma-separated JSON array items up to the closing bracket. -/
def parseArrItems : Nat → List Char → Option (List JsonVal × List Char)
  | 0, _ => none
  | fuel + 1, input =>
    match parseJsonVal fuel input with
    | none => none
    | some (v, r) =>
      match skipWs r with
      | c :: rest =>
        if c = ',' then
          match parseArrItems fuel rest with
          | some (vs, r2) => some (v :: vs, r2)
          | none => none
        else if c = ']' then some ([v], rest)
        else none
      | [] => none

/-- Comma-separated JSON object members up to the closing brace. -/
def parseObjMembers : Nat → List Char → Option (List (String × JsonVal) × List Char)
  | 0, _ => none
  | fuel + 1, input =>
    match skipWs input with
    | c :: rest =>
      if c = '"' then
        match parseStringBody (rest.length + 1) rest with
        | some (key, r) =>
          match skipWs r with
          | c2 :: rest2 =>
            if c2 = ':' then
              match parseJsonVal fuel rest2 with
              | some (v, r2) =>
                match skipWs r2 with
                | c3 :: rest3 =>
                  if c3 = ',' then
                    match parseObjMembers fuel rest3 with
                    | some (fs, r3) => some ((String.mk key, v) :: fs, r3)
                    | none => none
                  else if c3 = rbrace then some ([(String.mk key, v)], rest3)
                  else none
                | [] => none
              | none => none
            else none
          | [] => none
        | none => none
      else none
    | [] => none

end

/-- `json.loads`: parse one JSON value and require nothing but
whitespace after it. -/
def jsonParse (input : List Char) : Option JsonVal :=
  match parseJsonVal (input.length + 1) input with
  | some (v, rest) => if skipWs rest = [] then some v else none
  | none => none

end DoubaoASR
namespace DoubaoASR


/-- `base64.urlsafe_b64decode`: map the URL-safe alphabet to the
standard one. -/
def b64urlTranslate (c : Char) : Char :=
  if c = '-' then '+' else if c = '_' then '/' else c

/-- `base64.urlsafe_b64decode` (`validate=False`, the default):
translate the URL-safe characters, discard characters outside the
alphabet, then base64-decode; `none` models the `binascii.Error` (a
`ValueError`) on bad padding. -/
def b64urlDecode (s : List Char) : Option (List Nat) :=
  b64decode ((s.map b64urlTranslate).filter (fun c => (decChar c).isSome || c = '='))

/-- The padding fix-up of `_jwt_is_expired`: `padding = 4 - len % 4`,
appended as `=` characters when nonzero (`padding != 4`). -/
def jwtPad (p : List Char) : List Char :=
  if 4 - p.length % 4 ≠ 4 then p ++ List.replicate (4 - p.length % 4) '=' else p

/-- `_jwt_is_expired` of `config.py`, with `time.time()` passed in as
`now`.  Splits the token on dots, base64url-decodes segment 1, parses
it as JSON and compares its `exp` claim against `now` with the safety
`margin`; `IndexError` (fewer than two segments), `ValueError` (bad
base64) and `JSONDecodeError` are caught and yield `False`, as does a
payload whose `exp` is absent or `None`.  `some b` is a returned value;
`none` is an uncaught exception (`payload.get` on a non-dict payload,
or `exp - margin` on a non-numeric `exp`).  Decoded bytes are read as
characters one-to-one (multi-byte UTF-8 payloads are outside the
model); a Python `True`/`False` exp compares as `1`/`0`. -/
def jwt_is_expired (now margin : Int) (token : String) : Option Bool :=
  match (splitOnChar '.' token.toList).get? 1 with
  | none => some false
  | some payload_b64 =>
    match b64urlDecode (jwtPad payload_b64) with
    | none => some false
    | some bytes =>
      match jsonParse (bytes.map Char.ofNat) with
      | none => some false
      | some (.obj fs) =>
        match jsonLookup fs "exp" with
        | none => some false
        | some .null => some false
        | some (.num e) => some (decide (now ≥ e - margin))
        | some (.bool b) => some (decide (now ≥ (if b then 1 else 0) - margin))
        | some _ => none
      | some _ => none

/-- The cached-token decision of `ASRConfig.get_sami_token`: reuse the
cached `sami_token` when it is set (truthy) and `_jwt_is_expired` says
it is not expired; otherwise request a fresh one (`fresh` abstracts the
`get_sami_token` network call of `sami.py`).  `cached = none` models
absent credentials or an unset token; result `none` is an exception
propagating out of `_jwt_is_expired`. -/
def get_sami_token (cached : Option String) (fresh : String) (now : Int) : Option String :=
  match cached with
  | none => some fresh
  | some t =>
    if t = "" then some fresh
    else
      match jwt_is_expired now 60 t with
      | none => none
      | some true => some fresh
      | some false => some t


end DoubaoASR
namespace DoubaoASR

/-- C9 (amended): every failure path of the token-expiry check returns
`False` — fewer than two dot-separated segments (`IndexError`), a
payload that is not valid base64 (`ValueError`), a payload that is not
valid JSON (`JSONDecodeError`), or a JSON-object payload lacking an
`exp` claim — so the token is treated as not expired; and a *non-empty*
cached token of this shape is reused by `get_sami_token` rather than
refreshed (the empty string, though it also fails the segment check, is
falsy and is refreshed, not reused). -/
theorem jwt_malformed_not_expired (now margin : Int) (token fresh : String) :
    ((splitOnChar '.' token.toList).get? 1 = none →
      jwt_is_expired now margin token = some false) ∧
    (∀ p, (splitOnChar '.' token.toList).get? 1 = some p →
      b64urlDecode (jwtPad p) = none → jwt_is_expired now margin token = some false) ∧
    (∀ p bs, (splitOnChar '.' token.toList).get? 1 = some p →
      b64urlDecode (jwtPad p) = some bs → jsonParse (bs.map Char.ofNat) = none →
      jwt_is_expired now margin token = some false) ∧
    (∀ p bs fs, (splitOnChar '.' token.toList).get? 1 = some p →
      b64urlDecode (jwtPad p) = some bs →
      jsonParse (bs.map Char.ofNat) = some (.obj fs) → jsonLookup fs "exp" = none →
      jwt_is_expired now margin token = some false) ∧
    (token ≠ "" → jwt_is_expired now 60 token = some false →
      get_sami_token (some token) fresh now = some token) := by
  refine ⟨?_, ?_, ?_, ?_, ?_⟩
  · intro h
    unfold jwt_is_expired
    rw [h]
  · intro p hp hdec
    unfold jwt_is_expired
    rw [hp]
    dsimp only
    rw [hdec]
  · intro p bs hp hdec hparse
    unfold jwt_is_expired
    rw [hp]
    dsimp only
    rw [hdec]
    dsimp only
    rw [hparse]
  · intro p bs fs hp hdec hparse hexp
    unfold jwt_is_expired
    rw [hp]
    dsimp only
    rw [hdec]
    dsimp only
    rw [hparse]
    dsimp only
    rw [hexp]
  · intro hne hnotexp
    unfold get_sami_token
    dsimp only
    rw [if_neg hne, hnotexp]

/-- C9 counterexample: an empty cached token has fewer than two
dot-separated segments and the expiry check duly returns `False`, yet
`get_sami_token` does not reuse it — the empty string is falsy, so a
fresh token is requested instead. -/
theorem jwt_empty_token_counterexample :
    jwt_is_expired 0 60 "" = some false ∧
    get_sami_token (some "") "fresh" 0 = some "fresh" ∧
    get_sami_token (some "") "fresh" 0 ≠ some "" := by decide

/-- C9 witness: the amended theorem applied to concrete malformed
tokens — no dot (`"abc"`), an undecodable payload (`"h.A"`), a payload
that decodes to the non-JSON byte `0x7b` (`"h.ew"`), a payload decoding
to the JSON object with no `exp` (`"h.e30"`), and the reuse of that last
token by `get_sami_token`. -/
theorem jwt_malformed_not_expired_witness :
    ((splitOnChar '.' "abc".toList).get? 1 = none ∧
      jwt_is_expired 3 7 "abc" = some false) ∧
    ((splitOnChar '.' "h.A".toList).get? 1 = some ['A'] ∧
      b64urlDecode (jwtPad ['A']) = none ∧
      jwt_is_expired 3 7 "h.A" = some false) ∧
    ((splitOnChar '.' "h.ew".toList).get? 1 = some ['e', 'w'] ∧
      b64urlDecode (jwtPad ['e', 'w']) = some [123] ∧
      jsonParse ([123].map Char.ofNat) = none ∧
      jwt_is_expired 3 7 "h.ew" = some false) ∧
    ((splitOnChar '.' "h.e30".toList).get? 1 = some ['e', '3', '0'] ∧
      b64urlDecode (jwtPad ['e', '3', '0']) = some [123, 125] ∧
      jsonParse ([123, 125].map Char.ofNat) = some (.obj []) ∧
      jsonLookup ([] : List (String × JsonVal)) "exp" = none ∧
      jwt_is_expired 3 7 "h.e30" = some false) ∧
    ("h.e30" ≠ "" ∧ jwt_is_expired 5 60 "h.e30" = some false ∧
      get_sami_token (some "h.e30") "fresh" 5 = some "h.e30") :=
  ⟨⟨rfl, (jwt_malformed_not_expired 3 7 "abc" "fresh").1 rfl⟩,
   ⟨rfl, rfl, (jwt_malformed_not_expired 3 7 "h.A" "fresh").2.1 ['A'] rfl rfl⟩,
   ⟨rfl, rfl, rfl,
    (jwt_malformed_not_expired 3 7 "h.ew" "fresh").2.2.1 ['e', 'w'] [123] rfl rfl rfl⟩,
   ⟨rfl, rfl, rfl, rfl,
    (jwt_malformed_not_expired 3 7 "h.e30" "fresh").2.2.2.1 ['e', '3', '0'] [123, 125] []
      rfl rfl rfl rfl⟩,
   ⟨by decide, rfl,
    (jwt_malformed_not_expired 5 0 "h.e30" "fresh").2.2.2.2 (by decide) rfl⟩⟩

end DoubaoASR
